import Mathlib

/-!
Verification of the tpm2-pkcs11 hardware-backed key-management core
(`src/lib/tpm.h`) against its natural-language specification.

The repository ships only the interface header `tpm.h`; the implementing
translation unit is not part of the sources here.  Every behavioural
definition below is therefore modelled from the specification document
(the authority for behaviour), keeping the header's names and signatures
wherever Lean permits.  Blobs ("twists") are byte lists, handles are
naturals, and hardware faults are made explicit as boolean/inductive
fault parameters so that failure paths are first-class values.
-/

set_option linter.unusedVariables false
set_option linter.unnecessarySimpa false
set_option linter.unnecessarySeqFocus false

namespace Tpm2Pkcs11

/-- Secure byte buffer ("twist"): variable-length binary data with explicit
length, used for every blob, auth value and secret crossing the boundary. -/
abbrev Blob := List Nat

/-- Modelled from the spec: the error taxonomy of §7 — transport/device
faults, authorization faults, format faults, capacity faults, sequence
faults — plus the invalid-handle and unsupported-mechanism outcomes named
in §4. -/
inductive TpmError
  | deviceFault
  | authFault
  | blobFormatFault
  | capacityFault
  | sequenceFault
  | keyHandleInvalid
  | unsupportedMechanism
deriving DecidableEq, Repr

/-- Decides whether an `Except` result is a success. -/
def exceptOk {ε α : Type} : Except ε α → Bool
  | .ok _ => true
  | .error _ => false

/-- Modelled from the spec: a sealed object as stored in its opaque private
blob — the sealed payload (the application secret) protected under the
object's authorization value.  The blob is opaque ciphertext to callers;
the model records exactly the information the hardware recovers from it. -/
structure SealedObject where
  payload : Blob
  objauth : Blob
deriving DecidableEq, Repr

/-- Modelled from the spec: the hardware's table of resident objects,
keyed by transient handle (`tpm.c` is absent; §3 "Hardware Context"). -/
abbrev HwStore := List (Nat × SealedObject)

/-- Modelled from the spec: `tpm_unseal(ctx, handle, objauth)` — looks up the
resident object, checks the caller-supplied authorization value against the
one sealed into the blob, and returns the sealed secret on a match; a wrong
auth is an authorization fault, a transport fault is a device fault, an
unknown handle is an invalid-handle error (§4.5). -/
def tpm_unseal (s : HwStore) (fault : Bool) (h : Nat) (objauth : Blob) :
    Except TpmError Blob :=
  if fault then .error .deviceFault
  else
    match List.lookup h s with
    | none => .error .keyHandleInvalid
    | some o => if objauth = o.objauth then .ok o.payload else .error .authFault

/-- Result of `tpm2_create_seal_obj`: the new public and private blobs, the
live transient handle, and the updated hardware store. -/
structure SealResult where
  newpubblob : Blob
  newprivblob : SealedObject
  handle : Nat
  store : HwStore
deriving DecidableEq, Repr

/-- Modelled from the spec: `tpm2_create_seal_obj(ctx, parentauth,
parent_handle, objauth, oldpubblob, sealdata, ...)` — wraps `sealdata` as a
sealed object keyed by `objauth` under the parent, loads it, and hands back
the blobs together with the fresh transient handle (§4.5 seal-with-data). -/
def tpm2_create_seal_obj (s : HwStore) (parentauth : Blob) (parentHandle : Nat)
    (objauth : Blob) (oldpubblob : Blob) (sealdata : Blob) (nextH : Nat) :
    SealResult :=
  let o : SealedObject := ⟨sealdata, objauth⟩
  ⟨oldpubblob, o, nextH, (nextH, o) :: s⟩

/-- C1: unsealing a seal object created with `(secret, auth)` using `auth`
returns exactly `secret`; unsealing with any `wrong ≠ auth` fails with an
authorization fault and never returns any secret at all. -/
theorem c1_seal_unseal_roundtrip (s : HwStore) (pa oldpub : Blob) (ph nextH : Nat)
    (secret auth wrong : Blob) (hw : wrong ≠ auth) :
    tpm_unseal (tpm2_create_seal_obj s pa ph auth oldpub secret nextH).store false
        (tpm2_create_seal_obj s pa ph auth oldpub secret nextH).handle auth
      = .ok secret ∧
    tpm_unseal (tpm2_create_seal_obj s pa ph auth oldpub secret nextH).store false
        (tpm2_create_seal_obj s pa ph auth oldpub secret nextH).handle wrong
      = .error .authFault ∧
    ∀ out, tpm_unseal (tpm2_create_seal_obj s pa ph auth oldpub secret nextH).store false
        (tpm2_create_seal_obj s pa ph auth oldpub secret nextH).handle wrong
      ≠ .ok out := by
  refine ⟨?_, ?_, ?_⟩
  · simp [tpm_unseal, tpm2_create_seal_obj, List.lookup]
  · simp [tpm_unseal, tpm2_create_seal_obj, List.lookup, hw]
  · intro out
    simp [tpm_unseal, tpm2_create_seal_obj, List.lookup, hw]

/-- Witness for C1 at a concrete seal: secret `[1, 2, 3]`, auth `[9]`,
wrong auth `[8]`. -/
theorem c1_seal_unseal_roundtrip_witness :
    tpm_unseal (tpm2_create_seal_obj [] [] 0 [9] [] [1, 2, 3] 7).store false
        (tpm2_create_seal_obj [] [] 0 [9] [] [1, 2, 3] 7).handle [9]
      = .ok [1, 2, 3] ∧
    tpm_unseal (tpm2_create_seal_obj [] [] 0 [9] [] [1, 2, 3] 7).store false
        (tpm2_create_seal_obj [] [] 0 [9] [] [1, 2, 3] 7).handle [8]
      = .error .authFault :=
  ⟨(c1_seal_unseal_roundtrip [] [] [] 0 7 [1, 2, 3] [9] [8] (by decide)).1,
   (c1_seal_unseal_roundtrip [] [] [] 0 7 [1, 2, 3] [9] [8] (by decide)).2.1⟩

/-- Modelled from the spec: `tpm_changeauth(ctx, parent_handle, object_handle,
oldauth, newauth, *newblob)` — authorization rotation (§4.7).  On success the
hardware confirms the rewrap: a new private blob keyed by `newauth` is
produced and, observably, fully replaces the old one (the object under the
handle answers to `newauth` and no longer to `oldauth`).  On any failure —
transport fault at any point, wrong `oldauth`, unknown handle — the store is
left untouched and the original blob/handle remain usable under `oldauth`. -/
def tpm_changeauth (s : HwStore) (fault : Bool) (parentHandle objHandle : Nat)
    (oldauth newauth : Blob) : Except TpmError SealedObject × HwStore :=
  match List.lookup objHandle s with
  | none => (.error .keyHandleInvalid, s)
  | some o =>
    if fault then (.error .deviceFault, s)
    else if oldauth = o.objauth then
      (.ok ⟨o.payload, newauth⟩, (objHandle, ⟨o.payload, newauth⟩) :: s)
    else (.error .authFault, s)

/-- C2: change-auth is atomic as observed by the caller.  When it succeeds
(no fault, correct old auth) the returned blob is keyed by the new auth, the
object unseals under the new auth and no longer under the old one; when it
fails — mid-operation transport fault, or wrong old auth — the store is
unchanged and the object remains fully usable under the old auth. -/
theorem c2_changeauth_atomic (s : HwStore) (ph oh : Nat) (o : SealedObject)
    (old new bad : Blob) (hlook : List.lookup oh s = some o)
    (hauth : old = o.objauth) (hnew : new ≠ old) (hbad : bad ≠ o.objauth) :
    (tpm_changeauth s false ph oh old new).1 = .ok ⟨o.payload, new⟩ ∧
    tpm_unseal (tpm_changeauth s false ph oh old new).2 false oh new
      = .ok o.payload ∧
    tpm_unseal (tpm_changeauth s false ph oh old new).2 false oh old
      = .error .authFault ∧
    (tpm_changeauth s true ph oh old new).1 = .error .deviceFault ∧
    (tpm_changeauth s true ph oh old new).2 = s ∧
    (tpm_changeauth s false ph oh bad new).1 = .error .authFault ∧
    (tpm_changeauth s false ph oh bad new).2 = s ∧
    tpm_unseal s false oh old = .ok o.payload := by
  refine ⟨?_, ?_, ?_, ?_, ?_, ?_, ?_, ?_⟩
  · simp [tpm_changeauth, hlook, hauth]
  · simp [tpm_changeauth, hlook, hauth, tpm_unseal, List.lookup]
  · simp [tpm_changeauth, hlook, hauth, tpm_unseal, List.lookup]
    exact fun h => hnew (h.symm.trans hauth.symm)
  · simp [tpm_changeauth, hlook]
  · simp [tpm_changeauth, hlook]
  · simp [tpm_changeauth, hlook, hbad]
  · simp [tpm_changeauth, hlook, hbad]
  · simp [tpm_unseal, hlook, hauth]

/-- Witness for C2 on a one-object store: payload `[4, 2]`, old auth `[1]`,
new auth `[2]`, wrong auth `[3]`. -/
theorem c2_changeauth_atomic_witness :
    (tpm_changeauth [(5, ⟨[4, 2], [1]⟩)] false 0 5 [1] [2]).1
      = .ok ⟨[4, 2], [2]⟩ ∧
    tpm_unseal (tpm_changeauth [(5, ⟨[4, 2], [1]⟩)] false 0 5 [1] [2]).2 false 5 [2]
      = .ok [4, 2] ∧
    tpm_unseal (tpm_changeauth [(5, ⟨[4, 2], [1]⟩)] false 0 5 [1] [2]).2 false 5 [1]
      = .error .authFault ∧
    (tpm_changeauth [(5, ⟨[4, 2], [1]⟩)] true 0 5 [1] [2]).2 = [(5, ⟨[4, 2], [1]⟩)] := by
  have h := c2_changeauth_atomic [(5, ⟨[4, 2], [1]⟩)] 0 5 ⟨[4, 2], [1]⟩ [1] [2] [3]
    (by simp [List.lookup]) rfl (by decide) (by decide)
  exact ⟨h.1, h.2.1, h.2.2.1, h.2.2.2.2.1⟩

/-- Modelled from the spec: the software-visible state of a hardware context
(§3 "Hardware Context") — the tracked set of registered transient handles,
a fresh-handle counter, and the active authorization sessions (the hardware
grants at most one; the model counts them so the bound is a theorem, not a
typing accident). -/
structure TpmCtxSt where
  registered : List Nat
  nextHandle : Nat
  sessions : Nat
deriving DecidableEq, Repr

/-- A freshly opened context: no handles, no session. -/
def tpm_ctx_init : TpmCtxSt := ⟨[], 0, 0⟩

/-- Modelled from the spec: the operations on a context that touch the
handle registry or the session, each carrying the outcome of its hardware
round-trip where one is involved (`load`/`generate` succeed or fail as a
whole; `flush` names the handle to release). -/
inductive TpmOp
  | load (hwOk : Bool)
  | generate (hwOk : Bool)
  | flush (h : Nat)
  | sessionStart
  | sessionStop
  | authorizedOp
deriving DecidableEq, Repr

/-- Modelled from the spec: one operation step on a context, returning the
next state and whether the operation succeeded.  A failed load/generate
registers nothing (cleanup precedes the error return, §7); a successful one
registers exactly the fresh handle.  Flushing deregisters a registered
handle and fails on an unregistered one (§4.1).  `tpm_session_start` fails
while a session is active; `tpm_session_stop` fails with none; an operation
requiring authorization fails without a session (§3). -/
def tpm_step (st : TpmCtxSt) : TpmOp → TpmCtxSt × Bool
  | .load hwOk =>
    if hwOk then
      ({ st with registered := st.nextHandle :: st.registered,
                 nextHandle := st.nextHandle + 1 }, true)
    else (st, false)
  | .generate hwOk =>
    if hwOk then
      ({ st with registered := st.nextHandle :: st.registered,
                 nextHandle := st.nextHandle + 1 }, true)
    else (st, false)
  | .flush h =>
    if h ∈ st.registered then
      ({ st with registered := st.registered.erase h }, true)
    else (st, false)
  | .sessionStart =>
    if st.sessions = 0 then ({ st with sessions := st.sessions + 1 }, true)
    else (st, false)
  | .sessionStop =>
    if st.sessions = 0 then (st, false)
    else ({ st with sessions := st.sessions - 1 }, true)
  | .authorizedOp =>
    if st.sessions = 0 then (st, false) else (st, true)

/-- Bookkeeping over a run: successful loads+generations and successful
flushes. -/
structure OpCounts where
  acquires : Nat
  flushes : Nat
deriving DecidableEq, Repr

/-- Advances the counters by one operation's outcome. -/
def countStep (c : OpCounts) (op : TpmOp) (ok : Bool) : OpCounts :=
  match op with
  | .load _ => if ok then { c with acquires := c.acquires + 1 } else c
  | .generate _ => if ok then { c with acquires := c.acquires + 1 } else c
  | .flush _ => if ok then { c with flushes := c.flushes + 1 } else c
  | _ => c

/-- Runs a sequence of operations from a state, threading the counters. -/
def tpm_run (st : TpmCtxSt) (c : OpCounts) : List TpmOp → TpmCtxSt × OpCounts
  | [] => (st, c)
  | op :: ops =>
    let r := tpm_step st op
    tpm_run r.1 (countStep c op r.2) ops

/-- A single step keeps the handle count equal to successful acquisitions
minus successful flushes (stated additively). -/
theorem tpm_step_count (st : TpmCtxSt) (c : OpCounts) (op : TpmOp)
    (hinv : st.registered.length + c.flushes = c.acquires) :
    (tpm_step st op).1.registered.length
        + (countStep c op (tpm_step st op).2).flushes
      = (countStep c op (tpm_step st op).2).acquires := by
  cases op with
  | load hwOk => cases hwOk <;> simp [tpm_step, countStep] <;> omega
  | generate hwOk => cases hwOk <;> simp [tpm_step, countStep] <;> omega
  | flush h =>
    by_cases hm : h ∈ st.registered
    · have hlen : (st.registered.erase h).length = st.registered.length - 1 :=
        List.length_erase_of_mem hm
      have hpos : 0 < st.registered.length := List.length_pos.mpr (by
        intro he; rw [he] at hm; exact (List.not_mem_nil h) hm)
      simp [tpm_step, countStep, hm, hlen]
      omega
    · simp [tpm_step, countStep, hm, hinv]
  | sessionStart =>
    by_cases hz : st.sessions = 0 <;> simp [tpm_step, countStep, hz, hinv]
  | sessionStop =>
    by_cases hz : st.sessions = 0 <;> simp [tpm_step, countStep, hz, hinv]
  | authorizedOp =>
    by_cases hz : st.sessions = 0 <;> simp [tpm_step, countStep, hz, hinv]

/-- The handle-count invariant carries over any run. -/
theorem tpm_run_count (ops : List TpmOp) : ∀ (st : TpmCtxSt) (c : OpCounts),
    st.registered.length + c.flushes = c.acquires →
    (tpm_run st c ops).1.registered.length + (tpm_run st c ops).2.flushes
      = (tpm_run st c ops).2.acquires := by
  induction ops with
  | nil => intro st c hinv; simpa [tpm_run] using hinv
  | cons op ops ih =>
    intro st c hinv
    simpa [tpm_run] using ih _ _ (tpm_step_count st c op hinv)

/-- C5: handle hygiene — after every sequence of successful and failed
operations on a fresh context, the number of registered handles equals the
number of successful loads/generations minus the number of successful
flushes (stated additively, which also bounds flushes by acquisitions);
flushing an unregistered handle fails and changes nothing (no double-free),
and a failed load or generation registers nothing. -/
theorem c5_handle_hygiene (ops : List TpmOp) :
    ((tpm_run tpm_ctx_init ⟨0, 0⟩ ops).1.registered.length
        + (tpm_run tpm_ctx_init ⟨0, 0⟩ ops).2.flushes
      = (tpm_run tpm_ctx_init ⟨0, 0⟩ ops).2.acquires) ∧
    (∀ st h, h ∉ st.registered → tpm_step st (.flush h) = (st, false)) ∧
    (∀ st, tpm_step st (.load false) = (st, false)) ∧
    (∀ st, tpm_step st (.generate false) = (st, false)) := by
  refine ⟨tpm_run_count ops tpm_ctx_init ⟨0, 0⟩ (by simp [tpm_ctx_init]), ?_, ?_, ?_⟩
  · intro st h hm; simp [tpm_step, hm]
  · intro st; simp [tpm_step]
  · intro st; simp [tpm_step]

/-- Witness for C5 on a concrete trace: load, failed generate, flush of the
loaded handle, flush of an unregistered handle. -/
theorem c5_handle_hygiene_witness :
    ((tpm_run tpm_ctx_init ⟨0, 0⟩
        [.load true, .generate false, .flush 0, .flush 99]).1.registered.length
        + (tpm_run tpm_ctx_init ⟨0, 0⟩
        [.load true, .generate false, .flush 0, .flush 99]).2.flushes
      = (tpm_run tpm_ctx_init ⟨0, 0⟩
        [.load true, .generate false, .flush 0, .flush 99]).2.acquires) ∧
    tpm_step ⟨[4], 5, 0⟩ (.flush 7) = (⟨[4], 5, 0⟩, false) :=
  ⟨(c5_handle_hygiene [.load true, .generate false, .flush 0, .flush 99]).1,
   (c5_handle_hygiene []).2.1 ⟨[4], 5, 0⟩ 7 (by decide)⟩

/-- Any step preserves the at-most-one-session bound. -/
theorem tpm_step_sessions (st : TpmCtxSt) (op : TpmOp) (hb : st.sessions ≤ 1) :
    (tpm_step st op).1.sessions ≤ 1 := by
  cases op with
  | load hwOk => cases hwOk <;> simpa [tpm_step] using hb
  | generate hwOk => cases hwOk <;> simpa [tpm_step] using hb
  | flush h => by_cases hm : h ∈ st.registered <;> simpa [tpm_step, hm] using hb
  | sessionStart => by_cases hz : st.sessions = 0 <;> simp [tpm_step, hz] <;> omega
  | sessionStop => by_cases hz : st.sessions = 0 <;> simp [tpm_step, hz] <;> omega
  | authorizedOp => by_cases hz : st.sessions = 0 <;> simpa [tpm_step, hz] using hb

/-- The at-most-one-session bound carries over any run. -/
theorem tpm_run_sessions (ops : List TpmOp) : ∀ (st : TpmCtxSt) (c : OpCounts),
    st.sessions ≤ 1 → (tpm_run st c ops).1.sessions ≤ 1 := by
  induction ops with
  | nil => intro st c hb; simpa [tpm_run] using hb
  | cons op ops ih =>
    intro st c hb
    simpa [tpm_run] using ih _ _ (tpm_step_sessions st op hb)

/-- C8: every context holds at most one active authorization session after
any sequence of operations; `tpm_session_start` fails (with no state change)
whenever a session is already active, and an operation that requires a
session fails when none is active. -/
theorem c8_single_session (ops : List TpmOp) :
    (tpm_run tpm_ctx_init ⟨0, 0⟩ ops).1.sessions ≤ 1 ∧
    (∀ st : TpmCtxSt, st.sessions ≠ 0 → tpm_step st .sessionStart = (st, false)) ∧
    (∀ st : TpmCtxSt, st.sessions = 0 → tpm_step st .authorizedOp = (st, false)) := by
  refine ⟨tpm_run_sessions ops tpm_ctx_init ⟨0, 0⟩ (by simp [tpm_ctx_init]), ?_, ?_⟩
  · intro st hz; simp [tpm_step, hz]
  · intro st hz; simp [tpm_step, hz]

/-- Witness for C8: a trace that starts a session twice, and the concrete
second-start failure and the session-required precondition. -/
theorem c8_single_session_witness :
    (tpm_run tpm_ctx_init ⟨0, 0⟩
        [.sessionStart, .sessionStart, .authorizedOp]).1.sessions ≤ 1 ∧
    tpm_step ⟨[], 0, 1⟩ .sessionStart = (⟨[], 0, 1⟩, false) ∧
    tpm_step ⟨[], 0, 0⟩ .authorizedOp = (⟨[], 0, 0⟩, false) :=
  ⟨(c8_single_session [.sessionStart, .sessionStart, .authorizedOp]).1,
   (c8_single_session []).2.1 ⟨[], 0, 1⟩ (by decide),
   (c8_single_session []).2.2 ⟨[], 0, 0⟩ (by decide)⟩

/-- Modelled from the spec: where the hardware side of a key generation can
fail — at step 2 (hardware-side object creation) or at step 3 (loading the
private portion); `ok` means both round-trips succeeded (§4.4). -/
inductive GenOutcome
  | ok
  | createFail
  | loadFail
deriving DecidableEq, Repr

/-- Modelled from the spec: the static mechanism/algorithm capability table
(§3), abstracted to the set of mechanism identifiers that have a hardware
mapping. -/
def capability_table : List Nat := [0, 1, 2, 3, 4, 5]

/-- The `tpm_object_data` record of `tpm.h`: private and public transient
handles, and the durable public/private blobs. -/
structure tpm_object_data where
  privhandle : Nat
  pubhandle : Nat
  pubblob : Blob
  privblob : Blob
deriving DecidableEq, Repr

/-- Modelled from the spec: `tpm2_generate_key` (§4.4) — (1) translate the
mechanism through the capability table, failing with an
unsupported-mechanism error when no mapping exists; (2) hardware-side key
creation; (3) load the private portion for a live handle, registered in the
context; (4) on any failure at step 2 or 3 the partially created state is
cleaned up before the error returns, so the context is unchanged. -/
def tpm2_generate_key (hw : GenOutcome) (mech : Nat) (parent : Nat)
    (parentauth newauthbin : Blob) (ctx : TpmCtxSt) :
    Except TpmError tpm_object_data × TpmCtxSt :=
  if capability_table.contains mech then
    match hw with
    | .createFail => (.error .deviceFault, ctx)
    | .loadFail => (.error .deviceFault, ctx)
    | .ok =>
      (.ok ⟨ctx.nextHandle, 0, [mech], [mech]⟩,
       { ctx with registered := ctx.nextHandle :: ctx.registered,
                  nextHandle := ctx.nextHandle + 1 })
  else (.error .unsupportedMechanism, ctx)

/-- C3: key generation is all-or-nothing on the registered-handle set — on
success the context gains exactly the one fresh handle, and on failure at
any step it is returned exactly as it was, so the handle count grows by one
on success and zero on failure. -/
theorem c3_generate_all_or_nothing (hw : GenOutcome) (mech parent : Nat)
    (pa na : Blob) (ctx : TpmCtxSt) :
    (tpm2_generate_key hw mech parent pa na ctx).2
      = (if exceptOk (tpm2_generate_key hw mech parent pa na ctx).1 then
          { ctx with registered := ctx.nextHandle :: ctx.registered,
                     nextHandle := ctx.nextHandle + 1 }
         else ctx) ∧
    (tpm2_generate_key hw mech parent pa na ctx).2.registered.length
      = ctx.registered.length
        + (if exceptOk (tpm2_generate_key hw mech parent pa na ctx).1 then 1 else 0) := by
  by_cases hm : mech ∈ capability_table <;>
    cases hw <;> simp [tpm2_generate_key, exceptOk, hm]

/-- A digest or signature as a bit string. -/
abbrev Bits := List Bool

/-- Modelled from the spec: `tpm_sign` (§4.6) — one-shot, stateless signing
of a caller-supplied digest with the object's key.  The signature is an
abstract deterministic encoding binding the key and the digest; the model
takes the key-dependent tag followed by the digest bits, which keeps the
scheme injective in the digest for a fixed key (any concrete scheme a
verifier can recompute has this property). -/
def tpm_sign (key : Bits) (digest : Bits) : Bits :=
  key ++ digest

/-- The two normal, non-exceptional outcomes of a verification. -/
inductive VerifyOutcome
  | valid
  | invalid
deriving DecidableEq, Repr

/-- Modelled from the spec: `tpm_verify` (§4.6) — recomputes the expected
signature for the digest and compares; a mismatch is the normal `invalid`
outcome, not an error, while a transport fault is a device error. -/
def tpm_verify (fault : Bool) (key : Bits) (digest : Bits) (sig : Bits) :
    Except TpmError VerifyOutcome :=
  if fault then .error .deviceFault
  else if sig = tpm_sign key digest then .ok .valid
  else .ok .invalid

/-- Flips the single bit at index `i` of a bit string. -/
def flipBit : Bits → Nat → Bits
  | [], _ => []
  | b :: rest, 0 => (!b) :: rest
  | b :: rest, i + 1 => b :: flipBit rest i

/-- Flipping a bit inside the string changes it. -/
theorem flipBit_ne : ∀ (l : Bits) (i : Nat), i < l.length → flipBit l i ≠ l := by
  intro l
  induction l with
  | nil => intro i hi; simp at hi
  | cons b rest ih =>
    intro i hi
    cases i with
    | zero => cases b <;> simp [flipBit]
    | succ i =>
      intro hb
      have hrest : flipBit rest i = rest := by simpa [flipBit] using hb
      exact ih i (by simpa using hi) hrest

/-- C6: verifying a signature produced over the same digest yields the
valid outcome; flipping any single bit of the signature, or of the digest,
makes verification return the invalid outcome — a normal result, distinct
from the transport/device error. -/
theorem c6_sign_verify (key digest : Bits) (i j : Nat)
    (hi : i < (tpm_sign key digest).length) (hj : j < digest.length) :
    tpm_verify false key digest (tpm_sign key digest) = .ok .valid ∧
    tpm_verify false key digest (flipBit (tpm_sign key digest) i) = .ok .invalid ∧
    tpm_verify false key (flipBit digest j) (tpm_sign key digest) = .ok .invalid ∧
    (∀ r : VerifyOutcome,
      (Except.ok r : Except TpmError VerifyOutcome) ≠ .error .deviceFault) := by
  refine ⟨?_, ?_, ?_, ?_⟩
  · simp [tpm_verify]
  · simp [tpm_verify, flipBit_ne (tpm_sign key digest) i hi]
  · have hd : flipBit digest j ≠ digest := flipBit_ne digest j hj
    have hs : tpm_sign key digest ≠ tpm_sign key (flipBit digest j) := by
      intro he
      exact hd (List.append_cancel_left he.symm)
    simp [tpm_verify, hs]
  · intro r; simp

/-- Witness for C6 with key `[true]`, digest `[false, true]`, flipping
signature bit 0 and digest bit 1. -/
theorem c6_sign_verify_witness :
    tpm_verify false [true] [false, true] (tpm_sign [true] [false, true])
      = .ok .valid ∧
    tpm_verify false [true] [false, true] (flipBit (tpm_sign [true] [false, true]) 0)
      = .ok .invalid ∧
    tpm_verify false [true] (flipBit [false, true] 1) (tpm_sign [true] [false, true])
      = .ok .invalid :=
  ⟨(c6_sign_verify [true] [false, true] 0 1 (by decide) (by decide)).1,
   (c6_sign_verify [true] [false, true] 0 1 (by decide) (by decide)).2.1,
   (c6_sign_verify [true] [false, true] 0 1 (by decide) (by decide)).2.2.1⟩

/-- Modelled from the spec: the circumstances of a `tpm_loadobj` call —
whether the supplied public/private blobs parse, whether the transport is
up, and whether the parent authorization is the right one (§4.2). -/
structure LoadInput where
  blobsWellFormed : Bool
  transportFault : Bool
  parentAuthOk : Bool
deriving DecidableEq, Repr

/-- Modelled from the spec: `tpm_loadobj(ctx, phandle, auth, pub, priv,
*handle)` (§4.2, §7) — malformed blobs are a format fault detected before
anything is sent (as early as possible); then a transport fault is a device
fault; then a wrong parent auth is an authorization fault; otherwise the
object is loaded and its fresh transient handle returned. -/
def tpm_loadobj (inp : LoadInput) (h : Nat) : Except TpmError Nat :=
  if inp.blobsWellFormed = false then .error .blobFormatFault
  else if inp.transportFault then .error .deviceFault
  else if inp.parentAuthOk = false then .error .authFault
  else .ok h

/-- C7: load reports its failure cause distinctly — it returns the
blob-format fault exactly when the blobs are malformed, the device fault
exactly when the blobs parse but the transport faults, and the
authorization fault exactly when the blobs parse, the transport is up and
the parent auth is wrong; the three fault values are pairwise distinct, so
the caller can tell wrong PIN from broken device. -/
theorem c7_load_fault_discrimination (inp : LoadInput) (h : Nat) :
    (tpm_loadobj inp h = .error .blobFormatFault
      ↔ inp.blobsWellFormed = false) ∧
    (tpm_loadobj inp h = .error .deviceFault
      ↔ (inp.blobsWellFormed = true ∧ inp.transportFault = true)) ∧
    (tpm_loadobj inp h = .error .authFault
      ↔ (inp.blobsWellFormed = true ∧ inp.transportFault = false
          ∧ inp.parentAuthOk = false)) ∧
    (TpmError.blobFormatFault ≠ TpmError.authFault ∧
     TpmError.blobFormatFault ≠ TpmError.deviceFault ∧
     TpmError.authFault ≠ TpmError.deviceFault) := by
  obtain ⟨wf, tf, pa⟩ := inp
  cases wf <;> cases tf <;> cases pa <;> simp [tpm_loadobj]

/-- Witness for C7 at the wrong-parent-auth input. -/
theorem c7_load_fault_discrimination_witness :
    tpm_loadobj ⟨true, false, false⟩ 3 = .error .authFault :=
  (c7_load_fault_discrimination ⟨true, false, false⟩ 3).2.2.1.mpr
    ⟨rfl, rfl, rfl⟩

/-- The `CKR_OK` return value of the PKCS#11 return-code domain. -/
def CKR_OK : Nat := 0x00

/-- The `CKR_GENERAL_ERROR` return value. -/
def CKR_GENERAL_ERROR : Nat := 0x05

/-- The `CKR_ARGUMENTS_BAD` return value. -/
def CKR_ARGUMENTS_BAD : Nat := 0x07

/-- The slice of `CK_TOKEN_INFO` that `tpm_get_token_info` populates:
manufacturer, model, and spec/firmware versions read from the hardware. -/
structure CK_TOKEN_INFO where
  manufacturerID : String
  model : String
  specVersion : Nat
  firmwareVersion : Nat × Nat
deriving DecidableEq, Repr

/-- The hardware identity record retrieved from the device: spec version,
firmware version, manufacturer id and model. -/
structure TpmDeviceInfo where
  specVersion : Nat
  firmwareVersion : Nat × Nat
  manufacturerId : String
  model : String
deriving DecidableEq, Repr

/-- Modelled from the spec: the static `TPM2_MANUFACTURER_MAP` table from
manufacturer id to the human-readable manufacturer name (`tpm.h` line 44;
an immutable static table per §9). -/
def TPM2_MANUFACTURER_MAP : List (String × String) :=
  [("AMD", "AMD"), ("ATML", "Atmel"), ("BRCM", "Broadcom"), ("HPE", "HPE"),
   ("IBM", "IBM"), ("IFX", "Infineon"), ("INTC", "Intel"), ("LEN", "Lenovo"),
   ("MSFT", "Microsoft"), ("NSM", "National Semiconductor"),
   ("NTZ", "Nationz"), ("NTC", "Nuvoton Technologies"),
   ("QCOM", "Qualcomm"), ("SMSC", "SMSC"), ("STM", "ST Microelectronics"),
   ("SMSN", "Samsung"), ("SNS", "Sinosun"), ("TXN", "Texas Instruments"),
   ("WEC", "Winbond"), ("ROCC", "Fuzhou Rockchip"), ("GOOG", "Google")]

/-- Modelled from the spec: when the retrieved manufacturer id appears in
`TPM2_MANUFACTURER_MAP` the manufacturer field is extended with the
human-readable form of the name; otherwise it is written unextended. -/
def extendManufacturer (id : String) : String :=
  match List.lookup id TPM2_MANUFACTURER_MAP with
  | some name => id ++ " - " ++ name
  | none => id

/-- Modelled from the spec: the circumstances of a `tpm_get_token_info`
call — whether the context and output-structure arguments are valid
(non-null), and the device identity record when the transport round-trip
succeeds (`none` is a transport/device failure). -/
structure TokenInfoCall where
  ctxValid : Bool
  infoValid : Bool
  device : Option TpmDeviceInfo
deriving DecidableEq, Repr

/-- Modelled from the spec: `tpm_get_token_info` (`tpm.h` lines 40-53) —
bad arguments yield `CKR_ARGUMENTS_BAD`, a failed hardware read yields
`CKR_GENERAL_ERROR`, and otherwise the retrieved identity is written into
the `CK_TOKEN_INFO` structure with the manufacturer field extended through
the manufacturer map, returning `CKR_OK`. -/
def tpm_get_token_info (c : TokenInfoCall) : Nat × Option CK_TOKEN_INFO :=
  if c.ctxValid = false ∨ c.infoValid = false then (CKR_ARGUMENTS_BAD, none)
  else
    match c.device with
    | none => (CKR_GENERAL_ERROR, none)
    | some d =>
      (CKR_OK, some ⟨extendManufacturer d.manufacturerId, d.model,
                     d.specVersion, d.firmwareVersion⟩)

/-- C9: `tpm_get_token_info` returns only `CKR_OK`, `CKR_ARGUMENTS_BAD` or
`CKR_GENERAL_ERROR`, for every input. -/
theorem c9_token_info_return_domain (c : TokenInfoCall) :
    (tpm_get_token_info c).1 = CKR_OK ∨
    (tpm_get_token_info c).1 = CKR_ARGUMENTS_BAD ∨
    (tpm_get_token_info c).1 = CKR_GENERAL_ERROR := by
  obtain ⟨cv, iv, dev⟩ := c
  cases cv <;> cases iv <;> cases dev <;> simp [tpm_get_token_info]

/-- C10: on every successful `tpm_get_token_info` call the manufacturer
field written into `CK_TOKEN_INFO` goes through the manufacturer map — an
id present in `TPM2_MANUFACTURER_MAP` is extended with the human-readable
name, and an id that is absent is written unextended. -/
theorem c10_manufacturer_extension (c : TokenInfoCall) (d : TpmDeviceInfo)
    (hc : c.ctxValid = true) (hi : c.infoValid = true)
    (hd : c.device = some d) :
    ∃ info, tpm_get_token_info c = (CKR_OK, some info) ∧
      info.manufacturerID = extendManufacturer d.manufacturerId ∧
      (∀ name, List.lookup d.manufacturerId TPM2_MANUFACTURER_MAP = some name →
        info.manufacturerID = d.manufacturerId ++ " - " ++ name) ∧
      (List.lookup d.manufacturerId TPM2_MANUFACTURER_MAP = none →
        info.manufacturerID = d.manufacturerId) := by
  refine ⟨⟨extendManufacturer d.manufacturerId, d.model, d.specVersion,
           d.firmwareVersion⟩, ?_, rfl, ?_, ?_⟩
  · simp [tpm_get_token_info, hc, hi, hd]
  · intro name hname; simp [extendManufacturer, hname]
  · intro hnone; simp [extendManufacturer, hnone]

/-- Witness for C10 at a successful call with the Infineon id, which is in
the map. -/
theorem c10_manufacturer_extension_witness :
    ∃ info,
      tpm_get_token_info ⟨true, true, some ⟨2, (1, 38), "IFX", "SLB9670"⟩⟩
        = (CKR_OK, some info) ∧
      info.manufacturerID = "IFX - Infineon" := by
  obtain ⟨info, h1, h2, h3, h4⟩ := c10_manufacturer_extension
    ⟨true, true, some ⟨2, (1, 38), "IFX", "SLB9670"⟩⟩
    ⟨2, (1, 38), "IFX", "SLB9670"⟩ rfl rfl rfl
  exact ⟨info, h1, by rw [h3 "Infineon" (by rfl)]; rfl⟩

/-- The hardware cipher block size in bytes (the model fixes the usual
16-byte block; nothing below depends on the value beyond positivity). -/
def blockSize : Nat := 16

/-- The `tpm_encrypt_data` operation state of `tpm.h`: the running cipher
state resolved at init time (IV/counter/chaining value, abstracted to a
natural) and the internal partial-block buffer (§3 "Crypto Operation
State"). -/
structure tpm_encrypt_data where
  chain : Nat
  buf : List Nat
deriving DecidableEq, Repr

/-- Modelled from the spec: `tpm_encrypt_data_init` — resolves the
mechanism once and creates the operation state with an empty partial-block
buffer (§4.6). -/
def tpm_encrypt_data_init (chain0 : Nat) : tpm_encrypt_data :=
  ⟨chain0, []⟩

/-- Feeds one plaintext byte into the operation state: the byte joins the
partial-block buffer, and a completed block is pushed through the hardware
block transformation `E` (which consumes the running state and yields the
output block and the next state). -/
def absorbByte (E : Nat → List Nat → List Nat × Nat) (st : tpm_encrypt_data)
    (b : Nat) : List Nat × tpm_encrypt_data :=
  if st.buf.length + 1 = blockSize then
    ((E st.chain (st.buf ++ [b])).1, ⟨(E st.chain (st.buf ++ [b])).2, []⟩)
  else ([], ⟨st.chain, st.buf ++ [b]⟩)

/-- Modelled from the spec: `tpm_encrypt` — one update call of the stateful
pipeline: consumes a plaintext chunk, produces the corresponding ciphertext
chunk, buffering any partial block internally (§4.6). -/
def tpm_encrypt (E : Nat → List Nat → List Nat × Nat) :
    tpm_encrypt_data → List Nat → List Nat × tpm_encrypt_data
  | st, [] => ([], st)
  | st, b :: rest =>
    let r1 := absorbByte E st b
    let r2 := tpm_encrypt E r1.2 rest
    (r1.1 ++ r2.1, r2.2)

/-- Modelled from the spec: the final call — produces the last output chunk
(empty when no partial block is pending) and releases the state (§4.6). -/
def tpm_encrypt_final (E : Nat → List Nat → List Nat × Nat)
    (st : tpm_encrypt_data) : List Nat :=
  if st.buf.isEmpty then [] else (E st.chain st.buf).1

/-- The one-shot-equivalent encryption of a whole plaintext, stated from
the spec's words: the plaintext is processed block by block from the init
state, and the trailing partial block (if any) makes the last output. -/
def oneShotEncrypt (E : Nat → List Nat → List Nat × Nat) (chain : Nat)
    (ptext : List Nat) : List Nat :=
  if h : blockSize ≤ ptext.length then
    (E chain (ptext.take blockSize)).1 ++
      oneShotEncrypt E (E chain (ptext.take blockSize)).2 (ptext.drop blockSize)
  else if ptext.isEmpty then [] else (E chain ptext).1
termination_by ptext.length
decreasing_by simp [blockSize] at h ⊢; omega

/-- A whole init/update*/final sequence over a list of chunks: the updates
are run in order from the init state and the outputs concatenated, closed
by the final call. -/
def tpm_encrypt_updates (E : Nat → List Nat → List Nat × Nat) :
    tpm_encrypt_data → List (List Nat) → List Nat × tpm_encrypt_data
  | st, [] => ([], st)
  | st, c :: cs =>
    let r1 := tpm_encrypt E st c
    let r2 := tpm_encrypt_updates E r1.2 cs
    (r1.1 ++ r2.1, r2.2)

/-- The concatenated output of the full streaming sequence on a chunking. -/
def streamEncrypt (E : Nat → List Nat → List Nat × Nat) (chain0 : Nat)
    (chunks : List (List Nat)) : List Nat :=
  (tpm_encrypt_updates E (tpm_encrypt_data_init chain0) chunks).1 ++
    tpm_encrypt_final E
      (tpm_encrypt_updates E (tpm_encrypt_data_init chain0) chunks).2

/-- An update on a concatenation is the two updates in sequence. -/
theorem tpm_encrypt_append (E : Nat → List Nat → List Nat × Nat)
    (a : List Nat) : ∀ (st : tpm_encrypt_data) (b : List Nat),
    tpm_encrypt E st (a ++ b)
      = ((tpm_encrypt E st a).1 ++ (tpm_encrypt E (tpm_encrypt E st a).2 b).1,
         (tpm_encrypt E (tpm_encrypt E st a).2 b).2) := by
  induction a with
  | nil => intro st b; simp [tpm_encrypt]
  | cons x a ih =>
    intro st b
    simp [tpm_encrypt, ih]

/-- Running the updates over a chunk list is one update on the joined
plaintext. -/
theorem tpm_encrypt_updates_join (E : Nat → List Nat → List Nat × Nat)
    (cs : List (List Nat)) : ∀ st : tpm_encrypt_data,
    tpm_encrypt_updates E st cs = tpm_encrypt E st cs.flatten := by
  induction cs with
  | nil => intro st; simp [tpm_encrypt_updates, tpm_encrypt]
  | cons c cs ih =>
    intro st
    simp [tpm_encrypt_updates, ih, tpm_encrypt_append]

/-- Update-then-final from a state whose buffer is a partial block computes
the one-shot encryption of buffer-then-input. -/
theorem tpm_encrypt_final_oneshot (E : Nat → List Nat → List Nat × Nat)
    (l : List Nat) : ∀ (chain : Nat) (buf : List Nat), buf.length < blockSize →
    (tpm_encrypt E ⟨chain, buf⟩ l).1
        ++ tpm_encrypt_final E (tpm_encrypt E ⟨chain, buf⟩ l).2
      = oneShotEncrypt E chain (buf ++ l) := by
  induction l with
  | nil =>
    intro chain buf hlt
    rw [oneShotEncrypt]
    have hnle : ¬ blockSize ≤ buf.length := Nat.not_le.mpr hlt
    simp [tpm_encrypt, tpm_encrypt_final, hnle]
  | cons b rest ih =>
    intro chain buf hlt
    by_cases hfull : buf.length + 1 = blockSize
    · have htake : (buf ++ b :: rest).take blockSize = buf ++ [b] := by
        rw [← hfull]
        simpa using @List.take_append Nat buf (b :: rest) 1
      have hdrop : (buf ++ b :: rest).drop blockSize = rest := by
        rw [← hfull]
        simpa using @List.drop_append Nat buf (b :: rest) 1
      have hlen : blockSize ≤ (buf ++ b :: rest).length := by
        simp [← hfull]
      rw [oneShotEncrypt]
      simp only [hlen, dif_pos, htake, hdrop]
      have hih := ih (E chain (buf ++ [b])).2 [] (by simp [blockSize])
      simp [tpm_encrypt, absorbByte, hfull] at hih ⊢
      simp [hih]
    · have hlt2 : buf.length + 1 < blockSize :=
        lt_of_le_of_ne (Nat.succ_le_of_lt hlt) hfull
      have hih := ih chain (buf ++ [b]) (by simpa using hlt2)
      simp [tpm_encrypt, absorbByte, hfull] at hih ⊢
      simpa using hih

/-- C4: streaming equivalence — for every plaintext, every chunking of it
into the init/update*/final sequence produces, concatenated, exactly the
one-shot encryption of the whole plaintext under the same key state. -/
theorem c4_streaming_equivalence (E : Nat → List Nat → List Nat × Nat)
    (chain0 : Nat) (chunks : List (List Nat)) :
    streamEncrypt E chain0 chunks = oneShotEncrypt E chain0 chunks.flatten := by
  have h := tpm_encrypt_final_oneshot E chunks.flatten chain0 []
    (by simp [blockSize])
  simpa [streamEncrypt, tpm_encrypt_updates_join, tpm_encrypt_data_init]
    using h

end Tpm2Pkcs11
